import Mathlib

/- Shallow embedding of the background task subsystem of the calendar
   service: the bounded reminder queue and the event-creation handler
   enqueue, the per-reminder worker goroutine, the dispatcher loop with
   its wait-group join, the archiver loop, the async log sink, and the
   ArchiveOldEvents repository operation. Identifiers follow the Go
   sources; time is modelled as integer timestamps. -/

namespace Calendar

/-- Opaque identifier (uuid.UUID in the source); 0 plays the role of uuid.Nil. -/
abbrev UUID := Nat

/-- The nil UUID (uuid.Nil in the source). -/
def nilUUID : UUID := 0


/-- model.Reminder (internal/model/reminder.go): user and event identifiers,
the message (event title) and the time at which to send the reminder. -/
structure Reminder where
  userID : UUID
  eventID : UUID
  message : String
  remindAt : Int
  deriving Repr, DecidableEq

/-- Log levels of the zap logger as used by the workers and handlers. -/
inductive LogLevel
  | info
  | warn
  | error
  deriving Repr, DecidableEq

/-- A structured log line: level plus message. -/
structure LogMsg where
  level : LogLevel
  msg : String
  deriving Repr, DecidableEq

/-- A Go buffered channel of fixed capacity, seen from the producer side
with no receiver currently blocked: at most `capacity` items are buffered
(cmd/server/main.go creates the reminder channel with capacity 100). -/
structure BoundedChan (α : Type) where
  capacity : Nat
  buffer : List α
  deriving Repr, DecidableEq

/-- The non-blocking send performed by a select with a default branch on a
buffered channel with no waiting receiver: the item is appended when the
buffer has room, otherwise the default branch is taken and the send
reports rejection. Returns the new channel state and whether the send
was accepted. -/
def trySend {α : Type} (q : BoundedChan α) (x : α) : BoundedChan α × Bool :=
  if q.buffer.length < q.capacity then
    ({ q with buffer := q.buffer ++ [x] }, true)
  else
    (q, false)

/-- Repeated non-blocking sends, in order; returns the final channel state
and the number of rejected items. -/
def trySendAll {α : Type} : BoundedChan α → List α → BoundedChan α × Nat
  | q, [] => (q, 0)
  | q, x :: rest =>
    let s := trySend q x
    let t := trySendAll s.1 rest
    (t.1, (if s.2 then 0 else 1) + t.2)

/-- The reminder-scheduling block of Handler.Create (select on the reminder
channel with a default branch): on acceptance it logs at info level, on a
full channel it logs a warning and drops the reminder. -/
def scheduleReminder (q : BoundedChan Reminder) (r : Reminder) :
    BoundedChan Reminder × LogMsg :=
  let s := trySend q r
  if s.2 then
    (s.1, ⟨LogLevel.info, "reminder scheduled"⟩)
  else
    (s.1, ⟨LogLevel.warn, "reminder channel is full, dropping reminder"⟩)

theorem trySendAll_characterization {α : Type} (C : Nat) :
    ∀ (items b : List α), b.length ≤ C →
    (trySendAll ⟨C, b⟩ items).1.buffer = b ++ items.take (C - b.length) ∧
    (trySendAll ⟨C, b⟩ items).2 = items.length - (C - b.length) := by
  intro items
  induction items with
  | nil => intro b hb; simp [trySendAll]
  | cons x rest ih =>
    intro b hb
    by_cases hfull : b.length < C
    · have step : trySend (⟨C, b⟩ : BoundedChan α) x =
          (⟨C, b ++ [x]⟩, true) := by
        simp [trySend, hfull]
      have hlen : (b ++ [x]).length ≤ C := by
        simp only [List.length_append, List.length_singleton]
        omega
      obtain ⟨ih1, ih2⟩ := ih (b ++ [x]) hlen
      have hsub : C - b.length = (C - (b ++ [x]).length) + 1 := by
        simp only [List.length_append, List.length_singleton]
        omega
      constructor
      · simp only [trySendAll, step, ih1, hsub, List.take_succ_cons,
          List.append_assoc, List.singleton_append]
      · simp only [trySendAll, step, ih2, hsub, List.length_cons,
          if_true]
        simp only [List.length_append, List.length_singleton]
        omega
    · have hb' : b.length = C := by omega
      have step : trySend (⟨C, b⟩ : BoundedChan α) x =
          (⟨C, b⟩, false) := by
        simp [trySend, hfull]
      obtain ⟨ih1, ih2⟩ := ih b hb
      have hzero : C - b.length = 0 := by omega
      constructor
      · simp only [trySendAll, step, ih1, hzero, List.take_zero]
      · simp only [trySendAll, step, ih2, hzero, List.length_cons]
        simp only [show (false = true) = False by simp, if_neg not_false]
        omega

/-- Claim C1: scheduling a reminder is non-blocking and drops on a full
queue. For every state of the capacity-100 reminder queue the enqueue in
Handler.Create either appends the reminder (logging at info level) or, when
the queue already holds 100 buffered items, logs a warning and discards it
leaving the queue unchanged; enqueueing C+1 reminders into an empty
capacity-C queue with no consumer yields exactly the first C items in FIFO
order and exactly one rejection. -/
theorem claim1_schedule_drop_on_full (C : Nat) (items : List Reminder)
    (q : BoundedChan Reminder) (r : Reminder)
    (hitems : items.length = C + 1) (hcap : q.capacity = 100)
    (hq : q.buffer.length ≤ 100) :
    ((trySendAll ⟨C, []⟩ items).1.buffer = items.take C ∧
      (trySendAll ⟨C, []⟩ items).2 = 1) ∧
    (q.buffer.length < 100 →
      (scheduleReminder q r).1.buffer = q.buffer ++ [r] ∧
      (scheduleReminder q r).2.level = LogLevel.info) ∧
    (q.buffer.length = 100 →
      (scheduleReminder q r).1 = q ∧
      (scheduleReminder q r).2 =
        ⟨LogLevel.warn, "reminder channel is full, dropping reminder"⟩) := by
  obtain ⟨h1, h2⟩ := trySendAll_characterization C items [] (by simp)
  refine ⟨⟨?_, ?_⟩, ?_, ?_⟩
  · rw [h1]; simp
  · rw [h2, hitems]
    simp only [List.length_nil, Nat.sub_zero]
    omega
  · intro hlt
    have : q.buffer.length < q.capacity := by omega
    simp [scheduleReminder, trySend, this]
  · intro heq
    have : ¬ q.buffer.length < q.capacity := by omega
    simp [scheduleReminder, trySend, this]

/-- A concrete reminder used by witnesses. -/
def wr : Reminder := ⟨1, 1, "standup", 5⟩

theorem claim1_schedule_drop_on_full_witness :
    ([wr, wr, wr].length = 2 + 1 ∧
      (⟨100, []⟩ : BoundedChan Reminder).capacity = 100 ∧
      (⟨100, []⟩ : BoundedChan Reminder).buffer.length ≤ 100) ∧
    (((trySendAll ⟨2, []⟩ [wr, wr, wr]).1.buffer = [wr, wr, wr].take 2 ∧
        (trySendAll ⟨2, []⟩ [wr, wr, wr]).2 = 1) ∧
      ((⟨100, []⟩ : BoundedChan Reminder).buffer.length < 100 →
        (scheduleReminder ⟨100, []⟩ wr).1.buffer =
          (⟨100, []⟩ : BoundedChan Reminder).buffer ++ [wr] ∧
        (scheduleReminder ⟨100, []⟩ wr).2.level = LogLevel.info) ∧
      ((⟨100, []⟩ : BoundedChan Reminder).buffer.length = 100 →
        (scheduleReminder ⟨100, []⟩ wr).1 = ⟨100, []⟩ ∧
        (scheduleReminder ⟨100, []⟩ wr).2 =
          ⟨LogLevel.warn, "reminder channel is full, dropping reminder"⟩)) :=
  ⟨⟨rfl, rfl, by simp⟩,
    claim1_schedule_drop_on_full 2 [wr, wr, wr] ⟨100, []⟩ wr rfl rfl (by simp)⟩

/-- CreateRequest (event-creation handler): fields bound from the request
body; reminderAt is the optional reminder time (a nil pointer becomes
none). -/
structure CreateRequest where
  userID : UUID
  title : String
  description : String
  eventDate : Int
  reminderAt : Option Int
  deriving Repr, DecidableEq

/-- The response status written by Handler.Create. -/
inductive CreateStatus
  | unauthorized
  | badRequest
  | internalError
  | created (id : UUID)
  deriving Repr, DecidableEq

/-- Result of one run of Handler.Create: response status, the reminder
channel state after the run, and whether the reminder-scheduling select
block was reached and performed its non-blocking send. -/
structure CreateResult where
  status : CreateStatus
  queue : BoundedChan Reminder
  scheduleAttempted : Bool
  deriving Repr, DecidableEq

/-- Handler.Create (event-creation handler): checks the user id taken from
the request context, decodes the body, validates it, rejects missing
required fields, persists the event through the event service (modelled as
an oracle from the request to an id or an error) and, only when persistence
succeeded and the request carries a reminder time strictly after now, hands
a reminder to the bounded channel with a non-blocking send. -/
def Handler.Create (ctxUserID : Option UUID)
    (decoded : Except Unit CreateRequest) (validOk : CreateRequest → Bool)
    (persist : CreateRequest → Except Unit UUID) (now : Int)
    (q : BoundedChan Reminder) : CreateResult :=
  match ctxUserID with
  | none => ⟨CreateStatus.unauthorized, q, false⟩
  | some uid =>
    if uid = nilUUID then ⟨CreateStatus.unauthorized, q, false⟩
    else
      match decoded with
      | Except.error _ => ⟨CreateStatus.badRequest, q, false⟩
      | Except.ok req =>
        if ¬ validOk req then ⟨CreateStatus.badRequest, q, false⟩
        else if req.title = "" ∨ req.eventDate = 0 ∨ req.userID = nilUUID then
          ⟨CreateStatus.badRequest, q, false⟩
        else
          match persist req with
          | Except.error _ => ⟨CreateStatus.internalError, q, false⟩
          | Except.ok id =>
            match req.reminderAt with
            | some t =>
              if now < t then
                ⟨CreateStatus.created id,
                  (scheduleReminder q ⟨req.userID, id, req.title, t⟩).1, true⟩
              else ⟨CreateStatus.created id, q, false⟩
            | none => ⟨CreateStatus.created id, q, false⟩

/-- Claim C9: a reminder is handed to the queue by the event-creation
handler iff the event was successfully persisted (response status is
created) and the request carries a reminder time strictly after the
current time; a created response certifies a successful persist, and
whenever the scheduling block is not reached the queue is unchanged. -/
theorem claim9_create_enqueues_iff (ctxUserID : Option UUID)
    (decoded : Except Unit CreateRequest) (validOk : CreateRequest → Bool)
    (persist : CreateRequest → Except Unit UUID) (now : Int)
    (q : BoundedChan Reminder) (req : CreateRequest)
    (hdec : decoded = Except.ok req) :
    ((Handler.Create ctxUserID decoded validOk persist now q).scheduleAttempted
        = true ↔
      ((∃ id, (Handler.Create ctxUserID decoded validOk persist now q).status
          = CreateStatus.created id) ∧
        ∃ t, req.reminderAt = some t ∧ now < t)) ∧
    (∀ id, (Handler.Create ctxUserID decoded validOk persist now q).status
        = CreateStatus.created id → persist req = Except.ok id) ∧
    ((Handler.Create ctxUserID decoded validOk persist now q).scheduleAttempted
        = false →
      (Handler.Create ctxUserID decoded validOk persist now q).queue = q) := by
  subst hdec
  cases ctxUserID with
  | none => simp [Handler.Create]
  | some uid =>
    unfold Handler.Create
    dsimp only
    by_cases h1 : uid = nilUUID
    · simp [h1]
    · rw [if_neg h1]
      by_cases h2 : validOk req
      · rw [if_neg (by simp [h2])]
        by_cases h3 : req.title = "" ∨ req.eventDate = 0 ∨ req.userID = nilUUID
        · rw [if_pos h3]; simp
        · rw [if_neg h3]
          cases hp : persist req with
          | error e => simp
          | ok id =>
            cases hr : req.reminderAt with
            | none => simp
            | some t =>
              by_cases h4 : now < t <;> simp [h4]
      · rw [if_pos (by simp [h2])]; simp

/-- A concrete create request used by witnesses. -/
def wreq : CreateRequest := ⟨1, "party", "", 10, some 20⟩

theorem claim9_create_enqueues_iff_witness :
    ((Except.ok wreq : Except Unit CreateRequest) = Except.ok wreq) ∧
    (((Handler.Create (some 1) (Except.ok wreq) (fun _ => true)
          (fun _ => Except.ok 7) 15 ⟨100, []⟩).scheduleAttempted = true ↔
        ((∃ id, (Handler.Create (some 1) (Except.ok wreq) (fun _ => true)
            (fun _ => Except.ok 7) 15 ⟨100, []⟩).status
            = CreateStatus.created id) ∧
          ∃ t, wreq.reminderAt = some t ∧ (15 : Int) < t)) ∧
      (∀ id, (Handler.Create (some 1) (Except.ok wreq) (fun _ => true)
          (fun _ => Except.ok 7) 15 ⟨100, []⟩).status
          = CreateStatus.created id → (Except.ok 7 : Except Unit UUID)
            = Except.ok id) ∧
      ((Handler.Create (some 1) (Except.ok wreq) (fun _ => true)
          (fun _ => Except.ok 7) 15 ⟨100, []⟩).scheduleAttempted = false →
        (Handler.Create (some 1) (Except.ok wreq) (fun _ => true)
          (fun _ => Except.ok 7) 15 ⟨100, []⟩).queue = ⟨100, []⟩)) :=
  ⟨rfl, claim9_create_enqueues_iff (some 1) (Except.ok wreq) (fun _ => true)
    (fun _ => Except.ok 7) 15 ⟨100, []⟩ wreq rfl⟩

/-- model.User, restricted to the fields the reminder worker touches. -/
structure User where
  id : UUID
  email : String
  deriving Repr, DecidableEq

/-- Which side of the select inside handleReminder becomes ready first:
the timer created by time.After, or the cancellation of the context. -/
inductive RaceWinner
  | timer
  | cancel
  deriving Repr, DecidableEq

/-- Observable actions of one run of Worker.handleReminder, in program
order. Delivery-phase actions carry the absolute time at which they are
performed. -/
inductive WorkerEv
  | waitTimer (d : Int)
  | cancelObserved
  | getByID (t : Int) (id : UUID)
  | warnFetchUser (t : Int)
  | send (t : Int) (dst : String) (msg : String)
  | warnSendFail (t : Int)
  deriving Repr, DecidableEq

/-- The notification text formatted by handleReminder. -/
def reminderMsg (r : Reminder) : String :=
  "🔔 Reminder: your event \"" ++ r.message ++ "\" is coming up!"

/-- The delivery phase of Worker.handleReminder, entered at absolute time
t: fetch the user; on failure log a warning and return; on success send
the notification once; a send failure is logged and not retried. -/
def deliverPhase (r : Reminder) (t : Int)
    (getByID : UUID → Except String User)
    (sendFn : String → String → Except String Unit) : List WorkerEv :=
  match getByID r.userID with
  | Except.error _ => [WorkerEv.getByID t r.userID, WorkerEv.warnFetchUser t]
  | Except.ok u =>
    match sendFn u.email (reminderMsg r) with
    | Except.error _ =>
      [WorkerEv.getByID t r.userID, WorkerEv.send t u.email (reminderMsg r),
        WorkerEv.warnSendFail t]
    | Except.ok _ =>
      [WorkerEv.getByID t r.userID, WorkerEv.send t u.email (reminderMsg r)]

/-- Worker.handleReminder (internal/worker/reminder/worker.go): computes
duration = remindAt - now; when positive it races time.After(duration)
against ctx.Done() — cancellation makes it return at once, the timer makes
it enter the delivery phase at time now + duration; when the duration is
not positive it enters the delivery phase immediately. -/
def handleReminder (r : Reminder) (now : Int) (race : RaceWinner)
    (getByID : UUID → Except String User)
    (sendFn : String → String → Except String Unit) : List WorkerEv :=
  let duration := r.remindAt - now
  if 0 < duration then
    match race with
    | RaceWinner.timer =>
      WorkerEv.waitTimer duration :: deliverPhase r (now + duration) getByID sendFn
    | RaceWinner.cancel => [WorkerEv.cancelObserved]
  else
    deliverPhase r now getByID sendFn

/-- True for notifier send events. -/
def isSendEv : WorkerEv → Bool
  | WorkerEv.send _ _ _ => true
  | _ => false

/-- True for user-lookup events. -/
def isLookupEv : WorkerEv → Bool
  | WorkerEv.getByID _ _ => true
  | _ => false

/-- Number of notifier invocations in a trace. -/
def sendCount (tr : List WorkerEv) : Nat := (tr.filter isSendEv).length

/-- Number of user-lookup invocations in a trace. -/
def lookupCount (tr : List WorkerEv) : Nat := (tr.filter isLookupEv).length

theorem deliverPhase_sendCount_le_one (r : Reminder) (t : Int)
    (getByID : UUID → Except String User)
    (sendFn : String → String → Except String Unit) :
    sendCount (deliverPhase r t getByID sendFn) ≤ 1 ∧
    lookupCount (deliverPhase r t getByID sendFn) = 1 := by
  unfold deliverPhase
  cases hg : getByID r.userID with
  | error e => simp [hg, sendCount, lookupCount, isSendEv, isLookupEv]
  | ok u =>
    cases hs : sendFn u.email (reminderMsg r) with
    | error e => simp [hg, hs, sendCount, lookupCount, isSendEv, isLookupEv]
    | ok v => simp [hg, hs, sendCount, lookupCount, isSendEv, isLookupEv]

theorem deliverPhase_send_time (r : Reminder) (t : Int)
    (getByID : UUID → Except String User)
    (sendFn : String → String → Except String Unit) :
    ∀ t0 dst m, WorkerEv.send t0 dst m ∈ deliverPhase r t getByID sendFn →
      t0 = t := by
  intro t0 dst m hm
  unfold deliverPhase at hm
  cases hg : getByID r.userID with
  | error e => rw [hg] at hm; simp at hm
  | ok u =>
    rw [hg] at hm
    dsimp only at hm
    cases hs : sendFn u.email (reminderMsg r) with
    | error e => rw [hs] at hm; simp at hm; tauto
    | ok v => rw [hs] at hm; simp at hm; tauto

theorem deliverPhase_cases (r : Reminder) (t : Int)
    (getByID : UUID → Except String User)
    (sendFn : String → String → Except String Unit) :
    (∀ e, getByID r.userID = Except.error e →
      deliverPhase r t getByID sendFn =
        [WorkerEv.getByID t r.userID, WorkerEv.warnFetchUser t]) ∧
    (∀ u, getByID r.userID = Except.ok u →
      (∀ e, sendFn u.email (reminderMsg r) = Except.error e →
        deliverPhase r t getByID sendFn =
          [WorkerEv.getByID t r.userID,
            WorkerEv.send t u.email (reminderMsg r), WorkerEv.warnSendFail t]) ∧
      (∀ v, sendFn u.email (reminderMsg r) = Except.ok v →
        deliverPhase r t getByID sendFn =
          [WorkerEv.getByID t r.userID,
            WorkerEv.send t u.email (reminderMsg r)])) := by
  refine ⟨?_, ?_⟩
  · intro e he
    simp [deliverPhase, he]
  · intro u hu
    refine ⟨?_, ?_⟩
    · intro e he
      simp [deliverPhase, hu, he]
    · intro v hv
      simp [deliverPhase, hu, hv]

theorem deliverPhase_sendCount_of_ok (r : Reminder) (t : Int)
    (getByID : UUID → Except String User)
    (sendFn : String → String → Except String Unit) (u : User)
    (hu : getByID r.userID = Except.ok u) :
    sendCount (deliverPhase r t getByID sendFn) = 1 := by
  obtain ⟨-, hok⟩ := deliverPhase_cases r t getByID sendFn
  obtain ⟨herr, hsucc⟩ := hok u hu
  cases hs : sendFn u.email (reminderMsg r) with
  | error e => rw [herr e hs]; simp [sendCount, isSendEv]
  | ok v => rw [hsucc v hs]; simp [sendCount, isSendEv]

/-- Claim C2: for every reminder picked up by the dispatcher, the
per-reminder goroutine computes delay = remindAt - now; when the delay is
not positive it enters the delivery phase immediately; otherwise it races
the timer against cancellation, and when cancellation wins it returns
having observed only the cancellation, with no user lookup and no notifier
call; when the timer wins it waits for the delay and enters the delivery
phase at the fire time. -/
theorem claim2_handle_reminder_race (r : Reminder) (now : Int)
    (race : RaceWinner) (getByID : UUID → Except String User)
    (sendFn : String → String → Except String Unit) :
    (r.remindAt - now ≤ 0 →
      handleReminder r now race getByID sendFn =
        deliverPhase r now getByID sendFn) ∧
    (0 < r.remindAt - now → race = RaceWinner.cancel →
      handleReminder r now race getByID sendFn = [WorkerEv.cancelObserved] ∧
      lookupCount (handleReminder r now race getByID sendFn) = 0 ∧
      sendCount (handleReminder r now race getByID sendFn) = 0) ∧
    (0 < r.remindAt - now → race = RaceWinner.timer →
      handleReminder r now race getByID sendFn =
        WorkerEv.waitTimer (r.remindAt - now) ::
          deliverPhase r r.remindAt getByID sendFn) := by
  have hfire : now + (r.remindAt - now) = r.remindAt := by ring
  refine ⟨?_, ?_, ?_⟩
  · intro h
    simp [handleReminder, show ¬ (0 < r.remindAt - now) by omega]
  · intro h hc
    subst hc
    simp [handleReminder, h, lookupCount, sendCount, isLookupEv, isSendEv]
  · intro h ht
    subst ht
    simp [handleReminder, h, hfire]

/-- Concrete oracles used by worker witnesses. -/
def wlookup : UUID → Except String User := fun _ => Except.ok ⟨1, "a@b.c"⟩

/-- A failing user-lookup oracle used by worker witnesses. -/
def wlookupErr : UUID → Except String User :=
  fun _ => Except.error "user not found"

/-- A succeeding notifier oracle used by worker witnesses. -/
def wsend : String → String → Except String Unit := fun _ _ => Except.ok ()

theorem claim2_handle_reminder_race_witness :
    (wr.remindAt - (0 : Int) ≤ 0 →
      handleReminder wr 0 RaceWinner.cancel wlookup wsend =
        deliverPhase wr 0 wlookup wsend) ∧
    (0 < wr.remindAt - (0 : Int) → RaceWinner.cancel = RaceWinner.cancel →
      handleReminder wr 0 RaceWinner.cancel wlookup wsend =
        [WorkerEv.cancelObserved] ∧
      lookupCount (handleReminder wr 0 RaceWinner.cancel wlookup wsend) = 0 ∧
      sendCount (handleReminder wr 0 RaceWinner.cancel wlookup wsend) = 0) ∧
    (0 < wr.remindAt - (0 : Int) → RaceWinner.cancel = RaceWinner.timer →
      handleReminder wr 0 RaceWinner.cancel wlookup wsend =
        WorkerEv.waitTimer (wr.remindAt - 0) ::
          deliverPhase wr wr.remindAt wlookup wsend) :=
  claim2_handle_reminder_race wr 0 RaceWinner.cancel wlookup wsend

/-- Claim C3: no premature delivery. For a reminder whose remindAt is
strictly in the future, the notifier is invoked at most once, every
notifier invocation in the trace happens at a time no earlier than
remindAt, cancellation observed first means the notifier is never invoked,
and when the timer wins and the user lookup succeeds the notifier is
invoked exactly once. -/
theorem claim3_no_premature_delivery (r : Reminder) (now : Int)
    (race : RaceWinner) (getByID : UUID → Except String User)
    (sendFn : String → String → Except String Unit)
    (hfut : now < r.remindAt) :
    sendCount (handleReminder r now race getByID sendFn) ≤ 1 ∧
    (∀ t0 dst m,
      WorkerEv.send t0 dst m ∈ handleReminder r now race getByID sendFn →
      r.remindAt ≤ t0) ∧
    (race = RaceWinner.cancel →
      sendCount (handleReminder r now race getByID sendFn) = 0) ∧
    (race = RaceWinner.timer → ∀ u, getByID r.userID = Except.ok u →
      sendCount (handleReminder r now race getByID sendFn) = 1) := by
  have hpos : 0 < r.remindAt - now := by omega
  have hfire : now + (r.remindAt - now) = r.remindAt := by ring
  cases race with
  | cancel =>
    have heq : handleReminder r now RaceWinner.cancel getByID sendFn =
        [WorkerEv.cancelObserved] := by
      simp [handleReminder, hpos]
    refine ⟨?_, ?_, ?_, ?_⟩
    · rw [heq]; simp [sendCount, isSendEv]
    · intro t0 dst m hm; rw [heq] at hm; simp at hm
    · intro _; rw [heq]; simp [sendCount, isSendEv]
    · intro hcontra; exact absurd hcontra (by simp)
  | timer =>
    have heq : handleReminder r now RaceWinner.timer getByID sendFn =
        WorkerEv.waitTimer (r.remindAt - now) ::
          deliverPhase r r.remindAt getByID sendFn := by
      simp [handleReminder, hpos, hfire]
    refine ⟨?_, ?_, ?_, ?_⟩
    · rw [heq]
      have := (deliverPhase_sendCount_le_one r r.remindAt getByID sendFn).1
      simpa [sendCount, isSendEv] using this
    · intro t0 dst m hm
      rw [heq] at hm
      rcases List.mem_cons.mp hm with h | h
      · cases h
      · have := deliverPhase_send_time r r.remindAt getByID sendFn t0 dst m h
        omega
    · intro hcontra; exact absurd hcontra (by simp)
    · intro _ u hu
      rw [heq]
      have := deliverPhase_sendCount_of_ok r r.remindAt getByID sendFn u hu
      simpa [sendCount, isSendEv] using this

theorem claim3_no_premature_delivery_witness :
    ((0 : Int) < wr.remindAt) ∧
    (sendCount (handleReminder wr 0 RaceWinner.timer wlookup wsend) ≤ 1 ∧
      (∀ t0 dst m,
        WorkerEv.send t0 dst m ∈ handleReminder wr 0 RaceWinner.timer wlookup wsend →
        wr.remindAt ≤ t0) ∧
      (RaceWinner.timer = RaceWinner.cancel →
        sendCount (handleReminder wr 0 RaceWinner.timer wlookup wsend) = 0) ∧
      (RaceWinner.timer = RaceWinner.timer → ∀ u, wlookup wr.userID = Except.ok u →
        sendCount (handleReminder wr 0 RaceWinner.timer wlookup wsend) = 1)) :=
  ⟨by decide, claim3_no_premature_delivery wr 0 RaceWinner.timer wlookup wsend
    (by decide)⟩

/-- Claim C5: reminder error handling without retry. Whenever the delivery
phase is reached (the delay was not positive, or the timer won the race), a
failed user lookup logs a warning and the notifier is never called; a
successful lookup leads to exactly one notifier call, and a notifier
failure logs a warning without a second attempt; the user lookup itself is
performed exactly once. -/
theorem claim5_no_retry_on_failure (r : Reminder) (now : Int)
    (race : RaceWinner) (getByID : UUID → Except String User)
    (sendFn : String → String → Except String Unit)
    (hfire : r.remindAt ≤ now ∨ race = RaceWinner.timer) :
    (∀ e, getByID r.userID = Except.error e →
      lookupCount (handleReminder r now race getByID sendFn) = 1 ∧
      sendCount (handleReminder r now race getByID sendFn) = 0 ∧
      ∃ t0, WorkerEv.warnFetchUser t0 ∈ handleReminder r now race getByID sendFn) ∧
    (∀ u, getByID r.userID = Except.ok u →
      lookupCount (handleReminder r now race getByID sendFn) = 1 ∧
      sendCount (handleReminder r now race getByID sendFn) = 1 ∧
      (∀ e, sendFn u.email (reminderMsg r) = Except.error e →
        ∃ t0, WorkerEv.warnSendFail t0 ∈ handleReminder r now race getByID sendFn)) := by
  have hdeliver : ∃ tf, handleReminder r now race getByID sendFn =
      (if 0 < r.remindAt - now
        then [WorkerEv.waitTimer (r.remindAt - now)] else []) ++
        deliverPhase r tf getByID sendFn := by
    by_cases hpos : 0 < r.remindAt - now
    · rcases hfire with hle | ht
      · omega
      · subst ht
        refine ⟨r.remindAt, ?_⟩
        have hf : now + (r.remindAt - now) = r.remindAt := by ring
        simp [handleReminder, hpos, hf]
    · refine ⟨now, ?_⟩
      simp [handleReminder, hpos]
  obtain ⟨tf, htr⟩ := hdeliver
  obtain ⟨herrcase, hokcase⟩ := deliverPhase_cases r tf getByID sendFn
  refine ⟨?_, ?_⟩
  · intro e he
    rw [htr, herrcase e he]
    by_cases hpos : 0 < r.remindAt - now <;>
      simp [hpos, lookupCount, sendCount, isLookupEv, isSendEv]
  · intro u hu
    obtain ⟨hsenderr, hsendok⟩ := hokcase u hu
    refine ⟨?_, ?_, ?_⟩
    · rw [htr]
      cases hs : sendFn u.email (reminderMsg r) with
      | error e =>
        rw [hsenderr e hs]
        by_cases hpos : 0 < r.remindAt - now <;>
          simp [hpos, lookupCount, isLookupEv]
      | ok v =>
        rw [hsendok v hs]
        by_cases hpos : 0 < r.remindAt - now <;>
          simp [hpos, lookupCount, isLookupEv]
    · rw [htr]
      cases hs : sendFn u.email (reminderMsg r) with
      | error e =>
        rw [hsenderr e hs]
        by_cases hpos : 0 < r.remindAt - now <;>
          simp [hpos, sendCount, isSendEv]
      | ok v =>
        rw [hsendok v hs]
        by_cases hpos : 0 < r.remindAt - now <;>
          simp [hpos, sendCount, isSendEv]
    · intro e he
      refine ⟨tf, ?_⟩
      rw [htr, hsenderr e he]
      by_cases hpos : 0 < r.remindAt - now <;> simp [hpos]

/-- A failing notifier oracle used by worker witnesses. -/
def wsendErr : String → String → Except String Unit :=
  fun _ _ => Except.error "smtp failure"

theorem claim5_no_retry_on_failure_witness :
    (wr.remindAt ≤ (10 : Int) ∨ RaceWinner.cancel = RaceWinner.timer) ∧
    ((∀ e, wlookupErr wr.userID = Except.error e →
      lookupCount (handleReminder wr 10 RaceWinner.cancel wlookupErr wsendErr) = 1 ∧
      sendCount (handleReminder wr 10 RaceWinner.cancel wlookupErr wsendErr) = 0 ∧
      ∃ t0, WorkerEv.warnFetchUser t0 ∈
        handleReminder wr 10 RaceWinner.cancel wlookupErr wsendErr) ∧
    (∀ u, wlookupErr wr.userID = Except.ok u →
      lookupCount (handleReminder wr 10 RaceWinner.cancel wlookupErr wsendErr) = 1 ∧
      sendCount (handleReminder wr 10 RaceWinner.cancel wlookupErr wsendErr) = 1 ∧
      (∀ e, wsendErr u.email (reminderMsg wr) = Except.error e →
        ∃ t0, WorkerEv.warnSendFail t0 ∈
          handleReminder wr 10 RaceWinner.cancel wlookupErr wsendErr))) :=
  ⟨Or.inl (by decide),
    claim5_no_retry_on_failure wr 10 RaceWinner.cancel wlookupErr wsendErr
      (Or.inl (by decide))⟩

/-- Phase of the dispatcher goroutine spawned by Worker.Start: looping is
the select loop, waiting is the wg.Wait call after the loop stopped
receiving, returned is after the goroutine has returned. -/
inductive DispatcherMode
  | looping
  | waiting
  | returned
  deriving Repr, DecidableEq

/-- State of Worker.Start together with its environment: the buffered
reminder channel (contents and closed flag), the cancellation context, the
wait-group counter of outstanding per-reminder goroutines, and the list of
reminders the loop has received and spawned goroutines for. -/
structure DispatcherState where
  mode : DispatcherMode
  chBuf : List Reminder
  chClosed : Bool
  ctxDone : Bool
  outstanding : Nat
  received : List Reminder
  deriving Repr, DecidableEq

/-- One transition of the dispatcher system (Worker.Start in
internal/worker/reminder/worker.go, plus its environment): the loop
receives a buffered reminder and spawns a goroutine (wg.Add(1) then go);
receiving on a closed drained channel or observing ctx.Done makes the loop
stop receiving and call wg.Wait; per-reminder goroutines complete
independently (wg.Done); the environment may close the channel, cancel the
context or buffer another reminder; wg.Wait returns, and with it the
dispatcher goroutine, only once the counter is zero. -/
inductive DStep : DispatcherState → DispatcherState → Prop
  | recv (s : DispatcherState) (r : Reminder) (rest : List Reminder) :
      s.mode = DispatcherMode.looping → s.chBuf = r :: rest →
      DStep s { s with chBuf := rest, outstanding := s.outstanding + 1,
                       received := s.received ++ [r] }
  | chanClosed (s : DispatcherState) :
      s.mode = DispatcherMode.looping → s.chBuf = [] → s.chClosed = true →
      DStep s { s with mode := DispatcherMode.waiting }
  | observeCancel (s : DispatcherState) :
      s.mode = DispatcherMode.looping → s.ctxDone = true →
      DStep s { s with mode := DispatcherMode.waiting }
  | goroutineDone (s : DispatcherState) :
      0 < s.outstanding →
      DStep s { s with outstanding := s.outstanding - 1 }
  | envSend (s : DispatcherState) (r : Reminder) :
      s.chClosed = false →
      DStep s { s with chBuf := s.chBuf ++ [r] }
  | envClose (s : DispatcherState) :
      DStep s { s with chClosed := true }
  | envCancel (s : DispatcherState) :
      DStep s { s with ctxDone := true }
  | ret (s : DispatcherState) :
      s.mode = DispatcherMode.waiting → s.outstanding = 0 →
      DStep s { s with mode := DispatcherMode.returned }

/-- The state right after Worker.Start spawned the dispatcher goroutine,
with the given initial channel contents. -/
def dispatcherInit (buf : List Reminder) : DispatcherState :=
  ⟨DispatcherMode.looping, buf, false, false, 0, []⟩

/-- Worker.Stop is wg.Wait: it can return exactly when the counter of
outstanding per-reminder goroutines is zero. -/
def stopCanReturn (s : DispatcherState) : Prop := s.outstanding = 0

theorem dstep_returned_outstanding (s s' : DispatcherState)
    (hstep : DStep s s')
    (hret : s.mode = DispatcherMode.returned → s.outstanding = 0) :
    s'.mode = DispatcherMode.returned → s'.outstanding = 0 := by
  cases hstep <;> simp_all

theorem dispatcher_reachable_returned (buf : List Reminder)
    (s : DispatcherState)
    (h : Relation.ReflTransGen DStep (dispatcherInit buf) s) :
    s.mode = DispatcherMode.returned → s.outstanding = 0 := by
  induction h with
  | refl => simp [dispatcherInit]
  | tail hab hbc ih => exact dstep_returned_outstanding _ _ hbc ih

/-- Claim C4: dispatcher shutdown join. In every execution of the
dispatcher from its start state, a returned state has zero outstanding
per-reminder goroutines, entering the returned state requires the
wg.Wait phase with the counter already at zero, the loop enters that
phase only because the channel is closed and drained or because the
context is done, and once it has left the loop no further reminder is
received; Stop (wg.Wait) can return exactly in states whose counter is
zero, hence in every returned state. -/
theorem claim4_dispatcher_shutdown_join (buf : List Reminder)
    (s s' : DispatcherState)
    (hreach : Relation.ReflTransGen DStep (dispatcherInit buf) s) :
    (s.mode = DispatcherMode.returned →
      s.outstanding = 0 ∧ stopCanReturn s) ∧
    (DStep s s' → s.mode ≠ DispatcherMode.looping →
      s'.received = s.received ∧ s'.mode ≠ DispatcherMode.looping) ∧
    (DStep s s' → s.mode ≠ DispatcherMode.returned →
      s'.mode = DispatcherMode.returned →
      s.mode = DispatcherMode.waiting ∧ s.outstanding = 0) ∧
    (DStep s s' → s.mode = DispatcherMode.looping →
      s'.mode = DispatcherMode.waiting →
      (s.chBuf = [] ∧ s.chClosed = true) ∨ s.ctxDone = true) := by
  refine ⟨?_, ?_, ?_, ?_⟩
  · intro hret
    have h0 := dispatcher_reachable_returned buf s hreach hret
    exact ⟨h0, h0⟩
  · intro hstep hmode
    cases hstep <;> simp_all
  · intro hstep hnot hret
    cases hstep <;> simp_all
  · intro hstep hloop hwait
    cases hstep <;> simp_all

theorem claim4_dispatcher_shutdown_join_witness :
    Relation.ReflTransGen DStep (dispatcherInit [])
      ⟨DispatcherMode.returned, [], false, true, 0, []⟩ ∧
    ((⟨DispatcherMode.returned, [], false, true, 0, []⟩ :
        DispatcherState).mode = DispatcherMode.returned →
      (⟨DispatcherMode.returned, [], false, true, 0, []⟩ :
        DispatcherState).outstanding = 0 ∧
      stopCanReturn ⟨DispatcherMode.returned, [], false, true, 0, []⟩) := by
  have h1 : DStep (dispatcherInit [])
      ⟨DispatcherMode.looping, [], false, true, 0, []⟩ := by
    have := DStep.envCancel (dispatcherInit [])
    simpa [dispatcherInit] using this
  have h2 : DStep (⟨DispatcherMode.looping, [], false, true, 0, []⟩ :
      DispatcherState) ⟨DispatcherMode.waiting, [], false, true, 0, []⟩ := by
    have := DStep.observeCancel
      (⟨DispatcherMode.looping, [], false, true, 0, []⟩ : DispatcherState)
      rfl rfl
    simpa using this
  have h3 : DStep (⟨DispatcherMode.waiting, [], false, true, 0, []⟩ :
      DispatcherState) ⟨DispatcherMode.returned, [], false, true, 0, []⟩ := by
    have := DStep.ret
      (⟨DispatcherMode.waiting, [], false, true, 0, []⟩ : DispatcherState)
      rfl rfl
    simpa using this
  have hreach : Relation.ReflTransGen DStep (dispatcherInit [])
      ⟨DispatcherMode.returned, [], false, true, 0, []⟩ :=
    Relation.ReflTransGen.head h1 (Relation.ReflTransGen.head h2
      (Relation.ReflTransGen.single h3))
  exact ⟨hreach, (claim4_dispatcher_shutdown_join []
    ⟨DispatcherMode.returned, [], false, true, 0, []⟩
    ⟨DispatcherMode.returned, [], false, true, 0, []⟩ hreach).1⟩

/-- Phase of the archiver goroutine spawned by archiver Worker.Start:
idle is the select loop between ticks, archiving is inside the synchronous
ArchiveOldEvents call, stopped is after ctx.Done was observed and the
goroutine returned (its deferred ticker.Stop having run). -/
inductive ArchMode
  | idle
  | archiving
  | stopped
  deriving Repr, DecidableEq

/-- State of the archiver goroutine and its environment: the phase, a
pending (delivered but not yet serviced) ticker tick, the cancellation
flag, whether the ticker has been stopped, the number of archive calls in
flight, the total number of archive invocations, the number of delivered
ticks, and the number of failures logged. -/
structure ArchState where
  mode : ArchMode
  tickPending : Bool
  ctxDone : Bool
  tickerStopped : Bool
  inFlight : Nat
  calls : Nat
  ticks : Nat
  errorsLogged : Nat
  deriving Repr, DecidableEq

/-- One transition of the archiver system (archiver Worker.Start): the
ticker delivers a tick while running; the loop services a pending tick
only while idle, invoking ArchiveOldEvents synchronously; the synchronous
call returns with success or failure, a failure only being logged; the
environment may cancel the context; the goroutine observes cancellation
only from the select loop (idle), stopping the ticker and returning. -/
inductive AStep : ArchState → ArchState → Prop
  | tick (s : ArchState) :
      s.tickerStopped = false →
      AStep s { s with tickPending := true, ticks := s.ticks + 1 }
  | serviceTick (s : ArchState) :
      s.mode = ArchMode.idle → s.tickPending = true →
      AStep s { s with mode := ArchMode.archiving, tickPending := false,
                       inFlight := s.inFlight + 1, calls := s.calls + 1 }
  | archiveReturn (s : ArchState) (ok : Bool) :
      s.mode = ArchMode.archiving →
      AStep s { s with mode := ArchMode.idle, inFlight := s.inFlight - 1,
                       errorsLogged :=
                         s.errorsLogged + (if ok then 0 else 1) }
  | envCancel (s : ArchState) :
      AStep s { s with ctxDone := true }
  | observeCancel (s : ArchState) :
      s.mode = ArchMode.idle → s.ctxDone = true →
      AStep s { s with mode := ArchMode.stopped, tickerStopped := true }

/-- The archiver state right after Worker.Start spawned the goroutine. -/
def archiverInit : ArchState :=
  ⟨ArchMode.idle, false, false, false, 0, 0, 0, 0⟩

/-- Inductive invariant of the archiver: at most one archive call is ever
in flight (exactly one while in the archiving phase, none otherwise),
every invocation was triggered by a delivered tick, and a stopped
goroutine has stopped its ticker. -/
def archInv (s : ArchState) : Prop :=
  s.inFlight ≤ 1 ∧
  (s.mode = ArchMode.archiving ↔ s.inFlight = 1) ∧
  s.calls + (if s.tickPending then 1 else 0) ≤ s.ticks ∧
  (s.mode = ArchMode.stopped → s.tickerStopped = true)

theorem astep_preserves_archInv (s s' : ArchState) (hstep : AStep s s')
    (hinv : archInv s) : archInv s' := by
  obtain ⟨h1, h2, h3, h4⟩ := hinv
  cases hstep with
  | tick h =>
    refine ⟨h1, by simpa using h2, ?_, by simpa using h4⟩
    simp only
    split at h3 <;> simp <;> omega
  | serviceTick hmode hpend =>
    have hnot : s.inFlight ≠ 1 := by
      intro hc
      have := h2.mpr hc
      rw [this] at hmode
      exact absurd hmode (by simp)
    refine ⟨by simp; omega, by simp; omega, ?_, by simp⟩
    rw [hpend] at h3
    simp at h3 ⊢
    omega
  | archiveReturn ok hmode =>
    have hfl : s.inFlight = 1 := h2.mp hmode
    refine ⟨by simp; omega, by simp [hfl], ?_, by simp⟩
    simpa using h3
  | envCancel =>
    exact ⟨h1, by simpa using h2, by simpa using h3, by simpa using h4⟩
  | observeCancel hmode hdone =>
    have hnot : s.inFlight ≠ 1 := by
      intro hc
      have := h2.mpr hc
      rw [this] at hmode
      exact absurd hmode (by simp)
    refine ⟨by simpa using h1, by simp [hnot], by simpa using h3, by simp⟩

theorem archiver_reachable_inv (s : ArchState)
    (h : Relation.ReflTransGen AStep archiverInit s) : archInv s := by
  induction h with
  | refl => simp [archInv, archiverInit]
  | tail hab hbc ih => exact astep_preserves_archInv _ _ hbc ih

/-- Claim C6: archiver mutual exclusion and cancellation. In every
execution of the archiver from its start state: archive invocations never
overlap (at most one call in flight, exactly one while archiving), a new
tick can only be serviced from the idle phase so the call count never
exceeds the tick count and no step taken during an in-flight call starts
another one, a failed call only increments the failure log, cancellation
is observed only from the idle phase — an in-progress call is allowed to
complete, never jumping from archiving to stopped — and the stopped
goroutine has stopped its ticker. -/
theorem claim6_archiver_mutual_exclusion (s s' : ArchState)
    (hreach : Relation.ReflTransGen AStep archiverInit s) :
    (s.inFlight ≤ 1 ∧ (s.mode = ArchMode.archiving ↔ s.inFlight = 1) ∧
      s.calls ≤ s.ticks ∧
      (s.mode = ArchMode.stopped → s.tickerStopped = true)) ∧
    (AStep s s' → s.mode = ArchMode.archiving →
      s'.calls = s.calls ∧ s'.mode ≠ ArchMode.stopped) ∧
    (AStep s s' → s.mode ≠ ArchMode.idle → s'.calls = s.calls) ∧
    (AStep s s' → s'.errorsLogged ≤ s.errorsLogged + 1 ∧
      s'.calls ≤ s.calls + 1) := by
  refine ⟨?_, ?_, ?_, ?_⟩
  · obtain ⟨h1, h2, h3, h4⟩ := archiver_reachable_inv s hreach
    refine ⟨h1, h2, ?_, h4⟩
    by_cases hp : s.tickPending <;> (simp [hp] at h3; omega)
  · intro hstep harch
    cases hstep <;> simp_all
  · intro hstep hidle
    cases hstep <;> simp_all
  · intro hstep
    cases hstep <;> simp_all
    split <;> omega

theorem claim6_archiver_mutual_exclusion_witness :
    Relation.ReflTransGen AStep archiverInit
      ⟨ArchMode.idle, false, false, false, 0, 1, 1, 1⟩ ∧
    ((⟨ArchMode.idle, false, false, false, 0, 1, 1, 1⟩ : ArchState).inFlight
        ≤ 1 ∧
      ((⟨ArchMode.idle, false, false, false, 0, 1, 1, 1⟩ : ArchState).mode
          = ArchMode.archiving ↔
        (⟨ArchMode.idle, false, false, false, 0, 1, 1, 1⟩ :
          ArchState).inFlight = 1) ∧
      (⟨ArchMode.idle, false, false, false, 0, 1, 1, 1⟩ : ArchState).calls ≤
        (⟨ArchMode.idle, false, false, false, 0, 1, 1, 1⟩ : ArchState).ticks ∧
      ((⟨ArchMode.idle, false, false, false, 0, 1, 1, 1⟩ : ArchState).mode
          = ArchMode.stopped →
        (⟨ArchMode.idle, false, false, false, 0, 1, 1, 1⟩ :
          ArchState).tickerStopped = true)) := by
  have h1 : AStep archiverInit
      ⟨ArchMode.idle, true, false, false, 0, 0, 1, 0⟩ := by
    have := AStep.tick archiverInit rfl
    simpa [archiverInit] using this
  have h2 : AStep (⟨ArchMode.idle, true, false, false, 0, 0, 1, 0⟩ : ArchState)
      ⟨ArchMode.archiving, false, false, false, 1, 1, 1, 0⟩ := by
    have := AStep.serviceTick
      (⟨ArchMode.idle, true, false, false, 0, 0, 1, 0⟩ : ArchState) rfl rfl
    simpa using this
  have h3 : AStep
      (⟨ArchMode.archiving, false, false, false, 1, 1, 1, 0⟩ : ArchState)
      ⟨ArchMode.idle, false, false, false, 0, 1, 1, 1⟩ := by
    have := AStep.archiveReturn
      (⟨ArchMode.archiving, false, false, false, 1, 1, 1, 0⟩ : ArchState)
      false rfl
    simpa using this
  have hreach : Relation.ReflTransGen AStep archiverInit
      ⟨ArchMode.idle, false, false, false, 0, 1, 1, 1⟩ :=
    Relation.ReflTransGen.head h1 (Relation.ReflTransGen.head h2
      (Relation.ReflTransGen.single h3))
  exact ⟨hreach, (claim6_archiver_mutual_exclusion
    ⟨ArchMode.idle, false, false, false, 0, 1, 1, 1⟩
    ⟨ArchMode.idle, false, false, false, 0, 1, 1, 1⟩ hreach).1⟩

/-- Timed run of the archiver loop, starting the clock at 0 when
Worker.Start is called. Modelled from the semantics of time.NewTicker:
the first tick is delivered one full interval after creation, never at
time zero, and subsequent ticks follow at interval steps; the loop selects
whichever of the next tick and the cancellation comes first (cancellation
strictly earlier than the next tick wins the select). Returns the absolute
times at which ArchiveOldEvents is invoked; fuel bounds the number of loop
iterations examined. -/
def archiverTicks : Nat → Int → Int → Int → List Int
  | 0, _, _, _ => []
  | fuel + 1, interval, cancelAt, nextTick =>
    if cancelAt < nextTick then []
    else nextTick :: archiverTicks fuel interval cancelAt (nextTick + interval)

/-- The invocation times of ArchiveOldEvents for a run of the archiver
started at time 0 with the given interval and cancellation time. -/
def archiverInvocations (fuel : Nat) (interval cancelAt : Int) : List Int :=
  archiverTicks fuel interval cancelAt interval

theorem archiverTicks_lower_bound (interval cancelAt : Int)
    (hpos : 0 < interval) :
    ∀ (fuel : Nat) (nextTick : Int),
      ∀ t ∈ archiverTicks fuel interval cancelAt nextTick, nextTick ≤ t := by
  intro fuel
  induction fuel with
  | zero => intro nextTick t ht; simp [archiverTicks] at ht
  | succ n ih =>
    intro nextTick t ht
    by_cases hc : cancelAt < nextTick
    · simp [archiverTicks, hc] at ht
    · simp only [archiverTicks, if_neg hc, List.mem_cons] at ht
      rcases ht with h | h
      · omega
      · have := ih (nextTick + interval) t h
        omega

/-- Claim C10: archiver start-up delay. Worker.Start spawns the loop in a
goroutine and returns immediately; the fixed-interval ticker never fires
at time zero, so every invocation of the archive operation happens no
earlier than one full interval after Start, and cancelling strictly within
the first interval means the archive operation is never invoked at all. -/
theorem claim10_archiver_first_tick_delay (fuel : Nat)
    (interval cancelAt : Int) (hpos : 0 < interval) :
    (∀ t ∈ archiverInvocations fuel interval cancelAt, interval ≤ t ∧ t ≠ 0) ∧
    (cancelAt < interval → archiverInvocations fuel interval cancelAt = []) := by
  constructor
  · intro t ht
    have := archiverTicks_lower_bound interval cancelAt hpos fuel interval t ht
    constructor
    · exact this
    · omega
  · intro hc
    cases fuel with
    | zero => simp [archiverInvocations, archiverTicks]
    | succ n => simp [archiverInvocations, archiverTicks, hc]

theorem claim10_archiver_first_tick_delay_witness :
    (0 : Int) < 10 ∧
    ((∀ t ∈ archiverInvocations 3 10 5, (10 : Int) ≤ t ∧ t ≠ 0) ∧
      ((5 : Int) < 10 → archiverInvocations 3 10 5 = [])) :=
  ⟨by decide, claim10_archiver_first_tick_delay 3 10 5 (by decide)⟩

/-- Modelled from the spec: middlewares.LogEntry, the request-log value
object handed from the logging middleware to the async log sink. The type
is referenced by cmd/server/main.go but its definition is not among the
sources; fields follow the data model of the spec (method, url, duration,
startTime). -/
structure LogEntry where
  method : String
  url : String
  duration : Int
  startTime : Int
  deriving Repr, DecidableEq

/-- Result of the logging middleware around one request: the response of
the inner handler (passed through untouched), the log-entry channel after
the hand-off, whether the entry was dropped, and how many structured-log
writes happened synchronously on the request path. -/
structure MiddlewareResult where
  response : Nat
  queue : BoundedChan LogEntry
  dropped : Bool
  syncLoggerWrites : Nat
  deriving Repr, DecidableEq

/-- Modelled from the spec: the async logging middleware (middlewares
package, referenced by cmd/server/main.go but not among the sources):
after the inner handler runs it builds a LogEntry and attempts a
non-blocking send into the bounded queue; on rejection the entry is
silently dropped; the structured logger is never written synchronously on
the request path. -/
def loggerMiddleware (q : BoundedChan LogEntry) (entry : LogEntry)
    (innerResponse : Nat) : MiddlewareResult :=
  let s := trySend q entry
  { response := innerResponse, queue := s.1, dropped := !s.2,
    syncLoggerWrites := 0 }

/-- Modelled from the spec: middlewares.StartAsyncLogger consumer
goroutine draining the bounded queue: the buffered entries are written to
the structured logger one by one, in acceptance (FIFO) order. -/
def drainSink : List LogEntry → List LogEntry
  | [] => []
  | e :: rest => e :: drainSink rest

theorem drainSink_id (entries : List LogEntry) :
    drainSink entries = entries := by
  induction entries with
  | nil => simp [drainSink]
  | cons e rest ih => simp [drainSink, ih]

/-- Claim C7: async log sink decoupling. For every request and queue
state, the logging middleware performs zero synchronous structured-log
writes on the request path and returns the inner response unchanged; the
hand-off is the non-blocking trySend, which appends the entry when the
queue has room and otherwise leaves the queue unchanged with the entry
silently dropped; the single consumer drains and writes exactly the
accepted entries in FIFO order. -/
theorem claim7_async_log_sink (q : BoundedChan LogEntry) (entry : LogEntry)
    (innerResponse : Nat) :
    (loggerMiddleware q entry innerResponse).syncLoggerWrites = 0 ∧
    (loggerMiddleware q entry innerResponse).response = innerResponse ∧
    (q.buffer.length < q.capacity →
      (loggerMiddleware q entry innerResponse).queue.buffer =
        q.buffer ++ [entry] ∧
      (loggerMiddleware q entry innerResponse).dropped = false) ∧
    (q.capacity ≤ q.buffer.length →
      (loggerMiddleware q entry innerResponse).queue = q ∧
      (loggerMiddleware q entry innerResponse).dropped = true) ∧
    drainSink (loggerMiddleware q entry innerResponse).queue.buffer =
      (loggerMiddleware q entry innerResponse).queue.buffer := by
  refine ⟨rfl, rfl, ?_, ?_, drainSink_id _⟩
  · intro hroom
    simp [loggerMiddleware, trySend, hroom]
  · intro hfull
    have : ¬ q.buffer.length < q.capacity := by omega
    simp [loggerMiddleware, trySend, this]

/-- A concrete log entry used by witnesses. -/
def wentry : LogEntry := ⟨"GET", "/api/events/day/2024-01-01", 12, 100⟩

theorem claim7_async_log_sink_witness :
    (loggerMiddleware ⟨100, []⟩ wentry 200).syncLoggerWrites = 0 ∧
    (loggerMiddleware ⟨100, []⟩ wentry 200).response = 200 ∧
    ((⟨100, []⟩ : BoundedChan LogEntry).buffer.length <
        (⟨100, []⟩ : BoundedChan LogEntry).capacity →
      (loggerMiddleware ⟨100, []⟩ wentry 200).queue.buffer =
        (⟨100, []⟩ : BoundedChan LogEntry).buffer ++ [wentry] ∧
      (loggerMiddleware ⟨100, []⟩ wentry 200).dropped = false) ∧
    ((⟨100, []⟩ : BoundedChan LogEntry).capacity ≤
        (⟨100, []⟩ : BoundedChan LogEntry).buffer.length →
      (loggerMiddleware ⟨100, []⟩ wentry 200).queue = ⟨100, []⟩ ∧
      (loggerMiddleware ⟨100, []⟩ wentry 200).dropped = true) ∧
    drainSink (loggerMiddleware ⟨100, []⟩ wentry 200).queue.buffer =
      (loggerMiddleware ⟨100, []⟩ wentry 200).queue.buffer :=
  claim7_async_log_sink ⟨100, []⟩ wentry 200

/-- model.Event, restricted to the columns ArchiveOldEvents copies. -/
structure Event where
  id : UUID
  userID : UUID
  eventDate : Int
  title : String
  description : String
  deriving Repr, DecidableEq

/-- The two tables touched by Repository.ArchiveOldEvents. -/
structure EventDB where
  events : List Event
  archived : List Event
  deriving Repr, DecidableEq

/-- The committed effect of Repository.ArchiveOldEvents
(internal/repository/event/repo.go): inside one transaction, INSERT into
archived_events every row of events with event_date < CURRENT_DATE, then
DELETE those rows from events; today stands for CURRENT_DATE, which is
stable across the two statements of the transaction. -/
def ArchiveOldEvents (db : EventDB) (today : Int) : EventDB :=
  { events := db.events.filter (fun e => !decide (e.eventDate < today)),
    archived := db.archived ++
      db.events.filter (fun e => decide (e.eventDate < today)) }

/-- The stages of the ArchiveOldEvents transaction at which the database
may fail. -/
inductive TxStage
  | beginTx
  | insertOld
  | deleteOld
  | commitTx
  deriving Repr, DecidableEq

/-- Repository.ArchiveOldEvents with failure injection: the error returned
at each stage, or the archived state when every stage succeeds. -/
def ArchiveOldEventsTx (failAt : Option TxStage) (db : EventDB)
    (today : Int) : Except String EventDB :=
  match failAt with
  | some TxStage.beginTx => Except.error "failed to begin transaction"
  | some TxStage.insertOld => Except.error "failed to insert old events"
  | some TxStage.deleteOld => Except.error "failed to delete old events"
  | some TxStage.commitTx => Except.error "failed to commit transaction"
  | none => Except.ok (ArchiveOldEvents db today)

/-- A run of ArchiveOldEvents as seen by the caller: on any error the
deferred rollback commits nothing and the state stays as it was; a nil
return commits the archive effect. The flag records whether the call
returned nil. -/
def runArchiveOldEvents (failAt : Option TxStage) (db : EventDB)
    (today : Int) : EventDB × Bool :=
  match ArchiveOldEventsTx failAt db today with
  | Except.error _ => (db, false)
  | Except.ok db2 => (db2, true)

theorem filter_after_filter_not {α : Type} (p : α → Bool) (l : List α) :
    List.filter p (List.filter (fun a => !p a) l) = [] := by
  induction l with
  | nil => simp
  | cons x xs ih =>
    by_cases hx : p x <;> simp [List.filter_cons, hx, ih]

theorem filter_not_idem {α : Type} (p : α → Bool) (l : List α) :
    List.filter (fun a => !p a) (List.filter (fun a => !p a) l) =
      List.filter (fun a => !p a) l := by
  induction l with
  | nil => simp
  | cons x xs ih =>
    by_cases hx : p x <;> simp [List.filter_cons, hx, ih]

/-- Claim C8: archive idempotence and atomicity. ArchiveOldEvents moves
exactly the events dated before today into the archive (an event stays
iff it is not old, an event is archived iff it was archived before or is
an old event), a failure at any transaction stage commits nothing, and a
second run on the already-archived state succeeds and leaves the state
unchanged: it finds no remaining old events and duplicates nothing. -/
theorem claim8_archive_idempotent_atomic (db : EventDB) (today : Int) :
    ((ArchiveOldEvents db today).events =
        db.events.filter (fun e => !decide (e.eventDate < today)) ∧
      (ArchiveOldEvents db today).archived =
        db.archived ++
          db.events.filter (fun e => decide (e.eventDate < today)) ∧
      (∀ e, e ∈ (ArchiveOldEvents db today).events ↔
        e ∈ db.events ∧ ¬ e.eventDate < today) ∧
      (∀ e, e ∈ (ArchiveOldEvents db today).archived ↔
        e ∈ db.archived ∨ (e ∈ db.events ∧ e.eventDate < today))) ∧
    (∀ st : TxStage, runArchiveOldEvents (some st) db today = (db, false)) ∧
    (runArchiveOldEvents none db today = (ArchiveOldEvents db today, true) ∧
      ArchiveOldEvents (ArchiveOldEvents db today) today =
        ArchiveOldEvents db today ∧
      (ArchiveOldEvents db today).events.filter
        (fun e => decide (e.eventDate < today)) = [] ∧
      runArchiveOldEvents none (ArchiveOldEvents db today) today =
        (ArchiveOldEvents db today, true)) := by
  refine ⟨⟨rfl, rfl, ?_, ?_⟩, ?_, rfl, ?_, ?_, ?_⟩
  · intro e
    simp [ArchiveOldEvents, List.mem_filter]
  · intro e
    simp [ArchiveOldEvents, List.mem_filter, List.mem_append]
  · intro st
    cases st <;> rfl
  · simp only [ArchiveOldEvents, EventDB.mk.injEq]
    constructor
    · exact filter_not_idem _ _
    · rw [List.append_assoc, filter_after_filter_not]
      simp
  · exact filter_after_filter_not _ _
  · simp only [runArchiveOldEvents, ArchiveOldEventsTx]
    simp only [ArchiveOldEvents, EventDB.mk.injEq]
    rw [filter_not_idem, List.append_assoc, filter_after_filter_not]
    simp

/-- Concrete events used by the archive witness: one dated before day 3,
one after. -/
def wdb : EventDB := ⟨[⟨1, 1, 1, "old", ""⟩, ⟨2, 1, 5, "new", ""⟩], []⟩

theorem claim8_archive_idempotent_atomic_witness :
    ((ArchiveOldEvents wdb 3).events =
        wdb.events.filter (fun e => !decide (e.eventDate < 3)) ∧
      (ArchiveOldEvents wdb 3).archived =
        wdb.archived ++ wdb.events.filter (fun e => decide (e.eventDate < 3)) ∧
      (∀ e, e ∈ (ArchiveOldEvents wdb 3).events ↔
        e ∈ wdb.events ∧ ¬ e.eventDate < 3) ∧
      (∀ e, e ∈ (ArchiveOldEvents wdb 3).archived ↔
        e ∈ wdb.archived ∨ (e ∈ wdb.events ∧ e.eventDate < 3))) ∧
    (∀ st : TxStage, runArchiveOldEvents (some st) wdb 3 = (wdb, false)) ∧
    (runArchiveOldEvents none wdb 3 = (ArchiveOldEvents wdb 3, true) ∧
      ArchiveOldEvents (ArchiveOldEvents wdb 3) 3 = ArchiveOldEvents wdb 3 ∧
      (ArchiveOldEvents wdb 3).events.filter
        (fun e => decide (e.eventDate < 3)) = [] ∧
      runArchiveOldEvents none (ArchiveOldEvents wdb 3) 3 =
        (ArchiveOldEvents wdb 3, true)) :=
  claim8_archive_idempotent_atomic wdb 3

end Calendar
